import Mathlib

/-!
# neogities: request/response pipeline of `src/neogities.c`

A shallow embedding of the client library in `src/neogities.c`.

* A C string is the list of its bytes before the terminating NUL (`List Nat`).
* A heap block is the list of its bytes; `size_t` arithmetic is taken modulo `2 ^ 64`.
* An out-parameter is passed in and returned: "not written" means "returned unchanged".
* Behaviour that C leaves undefined (a store outside a block, `strdup(NULL)`, an index
  past the end of a caller array, a second release of a transport handle) is the
  `Except.error` result, with the kind of fault.
* libcurl and jansson are outside the repository: the transfer is described by a
  `curl_world` (what the transport does), `json_loads` is a parameter, and the calls the
  code makes on the transport are recorded in a list of `curl_call`.
* `free`, `json_decref` and the first `curl_*` clean-up calls on an object only release
  storage and are not modelled; the second `curl_easy_cleanup` of the failure branch of
  `perform_request` is a fault. `malloc`, `strdup` and `curl_slist_append` are taken to
  succeed, `realloc` in `write_cb` may fail (the code tests it).
-/

namespace Neogities

/-- Kinds of undefined behaviour the embedding makes explicit. -/
inductive fault where
  | out_of_bounds
  | null_deref
  | double_free
  deriving DecidableEq, Repr

/-- Bytes of an ASCII literal of the source. -/
def ascii (s : String) : List Nat := s.toList.map Char.toNat

/-- The modulus of `size_t`. -/
def SIZE_MOD : Nat := 2 ^ 64

/-- Result of `snprintf(buf, size, fmt, ...)` as a C string, `formatted` being the full expansion
of the format: at most `size - 1` bytes are stored before the NUL. -/
def snprintf (size : Nat) (formatted : List Nat) : List Nat := formatted.take (size - 1)

/-- C `strlen`: a C string lies in memory, so its length is a `size_t` as it stands. -/
def strlen (s : List Nat) : Nat := s.length

/-- Subtraction of `size_t` values (both below `2 ^ 64`), wrapping around. -/
def size_sub (a b : Nat) : Nat := (a + SIZE_MOD - b) % SIZE_MOD

/-- C `strncat(dst, src, n)` where `dst` is a C string in an array of `cap` bytes: appends at
most `n` bytes of `src` and a NUL; writing past the array is a fault. -/
def strncat (cap : Nat) (dst src : List Nat) (n : Nat) : Except fault (List Nat) :=
  if (dst ++ src.take n).length + 1 ≤ cap then .ok (dst ++ src.take n)
  else .error .out_of_bounds

/-- C `strdup`: a copy of the C string, a fault on the null pointer. -/
def strdup (s : Option (List Nat)) : Except fault (List Nat) :=
  match s with
  | none => .error .null_deref
  | some v => .ok v

/-- A C loop `for (i = start; i < start + n; i++) a[i] = body(i)`: the values stored, in order. -/
def for_collect {α : Type} (body : Nat → Except fault α) : Nat → Nat → Except fault (List α)
  | _, 0 => .ok []
  | i, n + 1 =>
    match body i with
    | .error e => .error e
    | .ok v =>
      match for_collect body (i + 1) n with
      | .error e => .error e
      | .ok vs => .ok (v :: vs)

/-- The C string held in a block: the bytes before the first NUL. -/
def c_str (block : List Nat) : List Nat := block.takeWhile (fun b => b != 0)

/-! ## HTTP response buffer -/

/-- The `struct response` of the source: `data` is the allocated block, `len` the byte count. -/
structure response where
  data : List Nat
  len : Nat
  deriving DecidableEq, Repr

/-- A successful `realloc(old, n)`: the first `min old.length n` bytes are kept, the bytes
beyond them are indeterminate (`fresh i` at index `i`). -/
def realloc (old : List Nat) (n : Nat) (fresh : Nat → Nat) : List Nat :=
  old.take n ++ (List.range (n - old.length)).map (fun i => fresh (old.length + i))

/-- C `memcpy(dst + off, src, n)` on blocks; a copy outside either block is a fault. -/
def memcpy (dst : List Nat) (off : Nat) (src : List Nat) (n : Nat) : Except fault (List Nat) :=
  if off + n ≤ dst.length ∧ n ≤ src.length then
    .ok (dst.take off ++ src.take n ++ dst.drop (off + n))
  else .error .out_of_bounds

/-- C `block[i] = v`; a store outside the block is a fault. -/
def store (block : List Nat) (i : Nat) (v : Nat) : Except fault (List Nat) :=
  if i < block.length then .ok (block.set i v) else .error .out_of_bounds

/-- The `write_cb` of the source (lines 18-34). `ptr` is the delivered block, `alloc` the outcome
of the `realloc` call: `none` when it fails, `some fresh` when it succeeds with indeterminate
bytes `fresh`. Returns the callback's return value and the buffer afterwards. -/
def write_cb (ptr : List Nat) (size nmemb : Nat) (r : response) (alloc : Option (Nat → Nat)) :
    Except fault (Nat × response) :=
  let chunk := (size * nmemb) % SIZE_MOD
  match alloc with
  | none => .ok (0, r)
  | some fresh =>
    let tmp := realloc r.data ((r.len + chunk + 1) % SIZE_MOD) fresh
    match memcpy tmp r.len ptr chunk with
    | .error e => .error e
    | .ok d1 =>
      let len := (r.len + chunk) % SIZE_MOD
      match store d1 len 0 with
      | .error e => .error e
      | .ok d2 => .ok (chunk, { data := d2, len := len })

/-- One delivery of the transport to the write callback. -/
structure delivery where
  ptr : List Nat
  size : Nat
  nmemb : Nat
  alloc : Option (Nat → Nat)

/-- The buffer as `perform_request` (lines 50-52) and `neocities_upload` (lines 276-278) set it up:
a one-byte block holding the NUL, `len = 0`. -/
def response_init : response := { data := [0], len := 0 }

/-- The callback applied to a sequence of deliveries, in order: the return values and the
final buffer. -/
def write_cb_seq : List delivery → response → Except fault (List Nat × response)
  | [], r => .ok ([], r)
  | d :: ds, r =>
    match write_cb d.ptr d.size d.nmemb r d.alloc with
    | .error e => .error e
    | .ok (n, r1) =>
      match write_cb_seq ds r1 with
      | .error e => .error e
      | .ok (ns, r2) => .ok (n :: ns, r2)

/-! ## Transport: the calls made on libcurl and what it answers -/

/-- One part of a multipart form: `curl_mime_name` and `curl_mime_filedata`. -/
structure curl_mimepart where
  name : List Nat
  filedata : List Nat
  deriving DecidableEq, Repr

/-- The options set on the easy handle when the transfer starts. `httpheader` is the header list
(empty when the option is not set), `postfields` and `mimepost` are `none` when not set. -/
structure request where
  url : List Nat
  httpheader : List (List Nat)
  ssl_verifypeer : Int
  ssl_verifyhost : Int
  followlocation : Int
  connecttimeout : Int
  timeout : Int
  post : Bool
  postfields : Option (List Nat)
  mimepost : Option (List curl_mimepart)
  deriving DecidableEq, Repr

/-- Calls on the transport that the operations make, as a test double would observe them. -/
inductive curl_call where
  | easy_init
  | easy_perform (req : request)
  deriving DecidableEq, Repr

/-- What the transport does in one call of an operation: whether `curl_easy_init` returns a
handle, the chunks the transfer delivers to the write callback (with the outcome of each
`realloc`), the `CURLcode` of a transfer in which no callback aborts, and the value that
`curl_easy_getinfo(CURLINFO_RESPONSE_CODE)` stores (`none`: it stores nothing). In
`perform_request` that call (line 94) comes after `curl_easy_cleanup` (line 91); what it stores
through the released handle is this parameter. -/
structure curl_world where
  init_ok : Bool
  deliveries : List delivery
  res : Nat
  response_code : Option Int

/-- The `CURLcode` of success. -/
def CURLE_OK : Nat := 0

/-- The `CURLcode` of a transfer aborted by the write callback. -/
def CURLE_WRITE_ERROR : Nat := 23

/-- The transport delivering chunks: it stops at the first callback whose return value differs
from the size of its chunk. The flag tells whether every chunk was accepted. -/
def deliver : List delivery → response → Except fault (Bool × response)
  | [], r => .ok (true, r)
  | d :: ds, r =>
    match write_cb d.ptr d.size d.nmemb r d.alloc with
    | .error e => .error e
    | .ok (n, r1) => if n = d.size * d.nmemb then deliver ds r1 else .ok (false, r1)

/-- The transfer `curl_easy_perform` with `write_cb` as write function and `r` as write data. -/
def curl_easy_perform (w : curl_world) (r : response) : Except fault (Nat × response) :=
  match deliver w.deliveries r with
  | .error e => .error e
  | .ok (true, r1) => .ok (w.res, r1)
  | .ok (false, r1) => .ok (CURLE_WRITE_ERROR, r1)

/-- The `auth_header` buffer of 512 bytes after
`snprintf(auth_header, sizeof(auth_header), "Authorization: Bearer %s", api_key)`. -/
def auth_header (api_key : List Nat) : List Nat :=
  snprintf 512 (ascii "Authorization: Bearer " ++ api_key)

/-- The options `perform_request` sets on the handle (lines 54-86). -/
def perform_setup (url : List Nat) (api_key post_fields : Option (List Nat))
    (mime : Option (List curl_mimepart)) : request :=
  let headers : List (List Nat) :=
    match api_key with
    | none => []
    | some k => if strlen k > 0 then [] ++ [auth_header k] else []
  { url := url
    httpheader := headers
    ssl_verifypeer := 1
    ssl_verifyhost := 2
    followlocation := 0
    connecttimeout := 10
    timeout := 60
    post := post_fields.isSome
    postfields := post_fields
    mimepost := mime }

/-- The `perform_request` of the source (lines 39-104): return code, the `*resp` buffer
afterwards, and the calls made on the transport. The failure branch (lines 96-101) calls
`curl_slist_free_all(headers)` and `curl_easy_cleanup(curl)` again on what lines 90-91 have
released: the fault `double_free`, before `return 2` is reached. -/
def perform_request (w : curl_world) (url : List Nat) (api_key post_fields : Option (List Nat))
    (resp : response) (mime : Option (List curl_mimepart)) :
    Except fault (Nat × response × List curl_call) :=
  if w.init_ok = false then .ok (1, resp, [.easy_init])
  else
    let req := perform_setup url api_key post_fields mime
    match curl_easy_perform w response_init with
    | .error e => .error e
    | .ok (res, resp1) =>
      let http_code : Int := w.response_code.getD 0
      if res ≠ CURLE_OK ∨ http_code ≥ 400 then .error .double_free
      else .ok (0, resp1, [.easy_init, .easy_perform req])

/-- The contents of an uninitialised `struct response` local; `perform_request` never reads it. -/
def response_local : response := { data := [], len := 0 }

/-! ## JSON values (jansson) -/

/-- A decoded JSON value. An object is its members in lookup order. -/
inductive json_t where
  | object (members : List (List Nat × json_t))
  | array (elems : List json_t)
  | string (value : List Nat)
  | integer (value : Int)
  | real (value : Int)
  | jtrue
  | jfalse
  | jnull

/-- The jansson accessor `json_object_get`: `NULL` unless `j` is an object with that key. -/
def json_object_get (j : Option json_t) (key : List Nat) : Option json_t :=
  match j with
  | some (.object members) => members.lookup key
  | _ => none

/-- The jansson accessor `json_string_value`: `NULL` unless `j` is a string. -/
def json_string_value (j : Option json_t) : Option (List Nat) :=
  match j with
  | some (.string v) => some v
  | _ => none

/-- The jansson test `json_is_string`. -/
def json_is_string (j : Option json_t) : Bool :=
  match j with
  | some (.string _) => true
  | _ => false

/-- The jansson test `json_is_object`. -/
def json_is_object (j : Option json_t) : Bool :=
  match j with
  | some (.object _) => true
  | _ => false

/-- The jansson test `json_is_array`. -/
def json_is_array (j : Option json_t) : Bool :=
  match j with
  | some (.array _) => true
  | _ => false

/-- The jansson test `json_is_integer`. -/
def json_is_integer (j : Option json_t) : Bool :=
  match j with
  | some (.integer _) => true
  | _ => false

/-- The jansson accessor `json_integer_value`: `0` unless `j` is an integer. -/
def json_integer_value (j : Option json_t) : Int :=
  match j with
  | some (.integer v) => v
  | _ => 0

/-- The jansson accessor `json_array_size`: `0` unless `j` is an array. -/
def json_array_size (j : Option json_t) : Nat :=
  match j with
  | some (.array elems) => elems.length
  | _ => 0

/-- The jansson accessor `json_array_get`: `NULL` unless `j` is an array with that index. -/
def json_array_get (j : Option json_t) (i : Nat) : Option json_t :=
  match j with
  | some (.array elems) => elems[i]?
  | _ => none

/-! ## Output records -/

/-- Modelled from the spec: the record type `neocities_info_t` is declared in a header that is not
part of the sources; the fields are those of SiteInfo in section 3 of the specification, under the
names `neocities_info` and `neocities_free_info` use. A `char *` is `none` for `NULL`; `tags` is the
`char **` array, `none` for `NULL`. -/
structure neocities_info_t where
  sitename : Option (List Nat)
  created_at : Option (List Nat)
  last_updated : Option (List Nat)
  domain : Option (List Nat)
  hits : Int
  tags : Option (List (Option (List Nat)))
  tag_count : Nat
  deriving DecidableEq, Repr

/-- Modelled from the spec: the record type `neocities_filelist_t` is declared in a header that is
not part of the sources; the fields are those of FileList in section 3 of the specification, under
the names `neocities_list` and `neocities_free_filelist` use. -/
structure neocities_filelist_t where
  paths : Option (List (Option (List Nat)))
  count : Nat
  deriving DecidableEq, Repr

/-! ## info: GET /api/info -/

/-- The `url` buffer of `neocities_info` (lines 138-142). -/
def info_url (sitename : Option (List Nat)) : List Nat :=
  match sitename with
  | some s => snprintf 512 (ascii "https://neocities.org/api/info?sitename=" ++ s)
  | none => snprintf 512 (ascii "https://neocities.org/api/info")

/-- A `char *` field of the record: `json_is_string(j) ? strdup(json_string_value(j)) : NULL`. -/
def string_field (j : Option json_t) : Except fault (Option (List Nat)) :=
  if json_is_string j then
    match strdup (json_string_value j) with
    | .error e => .error e
    | .ok v => .ok (some v)
  else .ok none

/-- Lines 153-190 of `neocities_info`: the decoding of the parsed root into `*out`. -/
def info_from_root (root : json_t) (out : neocities_info_t) :
    Except fault (Nat × neocities_info_t) :=
  match json_string_value (json_object_get (some root) (ascii "result")) with
  | none => .ok (4, out)
  | some result =>
    if result ≠ ascii "success" then .ok (4, out)
    else
      let info := json_object_get (some root) (ascii "info")
      if json_is_object info = false then .ok (4, out)
      else
        let j_sitename := json_object_get info (ascii "sitename")
        let j_created := json_object_get info (ascii "created_at")
        let j_updated := json_object_get info (ascii "last_updated")
        let j_domain := json_object_get info (ascii "domain")
        let j_hits := json_object_get info (ascii "hits")
        match string_field j_sitename with
        | .error e => .error e
        | .ok sitename =>
        match string_field j_created with
        | .error e => .error e
        | .ok created_at =>
        match string_field j_updated with
        | .error e => .error e
        | .ok last_updated =>
        match string_field j_domain with
        | .error e => .error e
        | .ok domain =>
          let hits := if json_is_integer j_hits then json_integer_value j_hits else 0
          let out1 : neocities_info_t :=
            { out with sitename := sitename, created_at := created_at,
                       last_updated := last_updated, domain := domain, hits := hits }
          let tags := json_object_get info (ascii "tags")
          if json_is_array tags = false then
            .ok (0, { out1 with tags := none, tag_count := 0 })
          else
            let tc := json_array_size tags
            match for_collect (fun i => string_field (json_array_get tags i)) 0 tc with
            | .error e => .error e
            | .ok ts => .ok (0, { out1 with tags := some ts, tag_count := tc })

/-- The `neocities_info` of the source (lines 134-191). `json_loads` is the parser applied to
the response text. Returns the return code, `*out` afterwards and the transport calls. -/
def neocities_info (w : curl_world) (json_loads : List Nat → Option json_t)
    (sitename : Option (List Nat)) (out : neocities_info_t) :
    Except fault (Nat × neocities_info_t × List curl_call) :=
  match perform_request w (info_url sitename) none none response_local none with
  | .error e => .error e
  | .ok (ret, resp, calls) =>
    if ret ≠ 0 then .ok (ret, out, calls)
    else
      match json_loads (c_str resp.data) with
      | none => .ok (3, out, calls)
      | some root =>
        match info_from_root root out with
        | .error e => .error e
        | .ok (code, out1) => .ok (code, out1, calls)

/-! ## list: GET /api/list -/

/-- The `url` buffer of `neocities_list` (lines 201-203). -/
def list_url (path : Option (List Nat)) : List Nat :=
  match path with
  | some q => snprintf 512 (ascii "https://neocities.org/api/list?path=" ++ q)
  | none => snprintf 512 (ascii "https://neocities.org/api/list")

/-- Line 222 of `neocities_list`: `strdup(json_string_value(json_object_get(f, "path")))` for
element `i` of `arr`. -/
def list_path (arr : Option json_t) (i : Nat) : Except fault (Option (List Nat)) :=
  let f := json_array_get arr i
  match strdup (json_string_value (json_object_get f (ascii "path"))) with
  | .error e => .error e
  | .ok v => .ok (some v)

/-- Lines 214-225 of `neocities_list`: the decoding of the parsed root into `*out`. -/
def list_from_root (root : json_t) (out : neocities_filelist_t) :
    Except fault (Nat × neocities_filelist_t) :=
  match json_object_get (some root) (ascii "files") with
  | none => .ok (4, out)
  | some arr =>
    let count := json_array_size (some arr)
    match for_collect (list_path (some arr)) 0 count with
    | .error e => .error e
    | .ok paths => .ok (0, { paths := some paths, count := count })

/-- The `neocities_list` of the source (lines 196-226). -/
def neocities_list (w : curl_world) (json_loads : List Nat → Option json_t)
    (api_key path : Option (List Nat)) (out : neocities_filelist_t) :
    Except fault (Nat × neocities_filelist_t × List curl_call) :=
  match perform_request w (list_url path) api_key none response_local none with
  | .error e => .error e
  | .ok (ret, resp, calls) =>
    if ret ≠ 0 then .ok (ret, out, calls)
    else
      match json_loads (c_str resp.data) with
      | none => .ok (3, out, calls)
      | some root =>
        match list_from_root root out with
        | .error e => .error e
        | .ok (code, out1) => .ok (code, out1, calls)

/-! ## delete: POST /api/delete -/

/-- The `tmp` buffer of 256 bytes after `snprintf(tmp, sizeof(tmp), "filenames[]=%s&", name)`. -/
def delete_piece (name : List Nat) : List Nat :=
  snprintf 256 (ascii "filenames[]=" ++ name ++ ascii "&")

/-- The loop of `neocities_delete` (lines 239-243) from index `i` for `n` more rounds, `body`
being the C string in the 1024-byte array. Reading `filenames[i]` past the array is a fault. -/
def delete_body_loop (filenames : List (List Nat)) : Nat → Nat → List Nat →
    Except fault (List Nat)
  | _, 0, body => .ok body
  | i, n + 1, body =>
    match filenames[i]? with
    | none => .error .out_of_bounds
    | some name =>
      let tmp := delete_piece name
      match strncat 1024 body tmp (size_sub (size_sub 1024 (strlen body)) 1) with
      | .error e => .error e
      | .ok body1 => delete_body_loop filenames (i + 1) n body1

/-- The request body `neocities_delete` builds (lines 238-243), from `char body[1024] = ""`. -/
def delete_body (filenames : List (List Nat)) (count : Nat) : Except fault (List Nat) :=
  delete_body_loop filenames 0 count []

/-- The `neocities_delete` of the source (lines 231-255). `response` is `*response` before the
call (`none`: a null pointer); the result holds it afterwards, a block when it is written. -/
def neocities_delete (w : curl_world) (api_key : Option (List Nat))
    (filenames : List (List Nat)) (count : Nat) (response : Option (List Nat)) :
    Except fault (Nat × Option (List Nat) × List curl_call) :=
  match delete_body filenames count with
  | .error e => .error e
  | .ok body =>
    match perform_request w (ascii "https://neocities.org/api/delete") api_key (some body)
        response_local none with
    | .error e => .error e
    | .ok (ret, resp, calls) =>
      if ret ≠ 0 then .ok (ret, response, calls)
      else .ok (0, some resp.data, calls)

/-! ## upload: POST /api/upload -/

/-- The multipart form of `neocities_upload` (lines 301-306), parts `i`, ..., `i + n - 1`.
Reading either array past its end is a fault. -/
def upload_form (local_files remote_names : List (List Nat)) : Nat → Nat →
    Except fault (List curl_mimepart)
  | _, 0 => .ok []
  | i, n + 1 =>
    match remote_names[i]?, local_files[i]? with
    | some name, some file =>
      match upload_form local_files remote_names (i + 1) n with
      | .error e => .error e
      | .ok parts => .ok ({ name := name, filedata := file } :: parts)
    | _, _ => .error .out_of_bounds

/-- The options `neocities_upload` sets on the handle (lines 280-307). -/
def upload_setup (api_key : List Nat) (form : List curl_mimepart) : request :=
  { url := ascii "https://neocities.org/api/upload"
    httpheader := [] ++ [auth_header api_key]
    ssl_verifypeer := 1
    ssl_verifyhost := 2
    followlocation := 0
    connecttimeout := 10
    timeout := 60
    post := false
    postfields := none
    mimepost := some form }

/-- The `neocities_upload` of the source (lines 261-318). `response` is `*response` before the
call; the result holds it afterwards. -/
def neocities_upload (w : curl_world) (api_key : Option (List Nat))
    (local_files remote_names : List (List Nat)) (count : Nat) (response : Option (List Nat)) :
    Except fault (Nat × Option (List Nat) × List curl_call) :=
  match api_key with
  | none => .ok (3, response, [])
  | some k =>
    if strlen k = 0 then .ok (3, response, [])
    else if w.init_ok = false then .ok (1, response, [.easy_init])
    else
      match upload_form local_files remote_names 0 count with
      | .error e => .error e
      | .ok form =>
        let req := upload_setup k form
        match curl_easy_perform w response_init with
        | .error e => .error e
        | .ok (res, resp) =>
          if res ≠ CURLE_OK then .ok (2, response, [.easy_init, .easy_perform req])
          else .ok (0, some resp.data, [.easy_init, .easy_perform req])

/-! ## Properties -/

/-- Buffer invariant: the block is `len` content bytes followed by the NUL. -/
def response_ok (r : response) (content : List Nat) : Prop :=
  r.data = content ++ [0] ∧ r.len = content.length

theorem set_last (l : List Nat) (x v : Nat) : (l ++ [x]).set l.length v = l ++ [v] := by
  induction l with
  | nil => rfl
  | cons a t ih => simp [List.set, ih]

theorem drop_single (l : List Nat) (k : Nat) (h : l.length = k + 1) : ∃ x, l.drop k = [x] := by
  have h1 : (l.drop k).length = 1 := by simp [h]
  match hd : l.drop k, h1 with
  | [x], _ => exact ⟨x, rfl⟩

theorem realloc_length (old : List Nat) (n : Nat) (fresh : Nat → Nat) (h : old.length ≤ n) :
    (realloc old n fresh).length = n := by
  simp [realloc]; omega

theorem realloc_take (old : List Nat) (n : Nat) (fresh : Nat → Nat) (h : old.length ≤ n) :
    (realloc old n fresh).take old.length = old := by
  simp [realloc, List.take_append_eq_append_take, List.take_take, List.take_of_length_le h]

theorem write_cb_step (ptr : List Nat) (size nmemb : Nat) (r : response) (fresh : Nat → Nat)
    (content : List Nat) (hr : response_ok r content) (hp : ptr.length = size * nmemb)
    (hfit : content.length + ptr.length + 1 < SIZE_MOD) :
    ∃ r1, write_cb ptr size nmemb r (some fresh) = .ok (size * nmemb, r1) ∧
      response_ok r1 (content ++ ptr) := by
  obtain ⟨hd, hl⟩ := hr
  have h1 : (size * nmemb) % SIZE_MOD = ptr.length := by
    rw [← hp]; exact Nat.mod_eq_of_lt (by omega)
  have h2 : (content.length + ptr.length + 1) % SIZE_MOD = content.length + ptr.length + 1 :=
    Nat.mod_eq_of_lt hfit
  have h3 : (content.length + ptr.length) % SIZE_MOD = content.length + ptr.length :=
    Nat.mod_eq_of_lt (by omega)
  refine ⟨{ data := content ++ ptr ++ [0], len := content.length + ptr.length }, ?_, ?_⟩
  · have hle : r.data.length ≤ content.length + ptr.length + 1 := by simp [hd]
    have hlen := realloc_length r.data _ fresh hle
    have htk : (realloc r.data (content.length + ptr.length + 1) fresh).take content.length
        = content := by
      have h := realloc_take r.data _ fresh hle
      have h4 := congrArg (List.take content.length) h
      rw [List.take_take] at h4
      simpa [hd] using h4
    obtain ⟨x, hx⟩ := drop_single _ (content.length + ptr.length) hlen
    have hs := set_last (content ++ ptr) x 0
    simp only [List.length_append] at hs
    simp only [write_cb, hl, h1, h2, h3, memcpy, store]
    rw [if_pos ⟨by omega, le_refl _⟩]
    simp only [htk, hx, List.take_length]
    rw [if_pos (by simp)]
    simp only [hs, ← hp]
  · exact ⟨rfl, by simp⟩

theorem write_cb_seq_ok (ds : List delivery) :
    ∀ (r : response) (content : List Nat), response_ok r content →
      (∀ d ∈ ds, d.alloc.isSome = true) → (∀ d ∈ ds, d.ptr.length = d.size * d.nmemb) →
      content.length + (ds.map (fun d => d.size * d.nmemb)).sum + 1 < SIZE_MOD →
      ∃ r1, write_cb_seq ds r = .ok (ds.map (fun d => d.size * d.nmemb), r1) ∧
        response_ok r1 (content ++ (ds.map (fun d => d.ptr)).flatten) := by
  induction ds with
  | nil =>
    intro r content hr _ _ _
    exact ⟨r, rfl, by simpa using hr⟩
  | cons d ds ih =>
    intro r content hr ha hp hfit
    have hpd := hp d (List.mem_cons_self _ _)
    simp only [List.map_cons, List.sum_cons] at hfit
    obtain ⟨fresh, hfresh⟩ := Option.isSome_iff_exists.mp (ha d (List.mem_cons_self _ _))
    obtain ⟨r1, hw, hr1⟩ := write_cb_step d.ptr d.size d.nmemb r fresh content hr hpd
      (by omega)
    obtain ⟨r2, hs, hr2⟩ := ih r1 (content ++ d.ptr) hr1
      (fun e he => ha e (List.mem_cons_of_mem _ he))
      (fun e he => hp e (List.mem_cons_of_mem _ he))
      (by simp only [List.length_append]; omega)
    refine ⟨r2, ?_, by simpa using hr2⟩
    simp only [write_cb_seq, hfresh, hw, hs, List.map_cons]

/-- C1: chunks delivered to `write_cb` on the initially empty buffer, every `realloc`
succeeding, leave the concatenation of the chunks in the first `len` bytes, `len` equal to the
sum of the chunk sizes `size * nmemb`, a NUL at index `len`, and every call returns the size of
its chunk. The chunks are blocks of `size * nmemb` bytes and the total plus the terminator is
addressable (`< 2 ^ 64`). -/
theorem write_cb_accumulates (ds : List delivery)
    (halloc : ∀ d ∈ ds, d.alloc.isSome = true)
    (hptr : ∀ d ∈ ds, d.ptr.length = d.size * d.nmemb)
    (hfit : (ds.map (fun d => d.size * d.nmemb)).sum + 1 < SIZE_MOD) :
    ∃ r, write_cb_seq ds response_init = .ok (ds.map (fun d => d.size * d.nmemb), r) ∧
      r.data.take r.len = (ds.map (fun d => d.ptr)).flatten ∧
      r.len = (ds.map (fun d => d.size * d.nmemb)).sum ∧
      r.data[r.len]? = some 0 := by
  obtain ⟨r, hs, hd, hl⟩ := write_cb_seq_ok ds response_init [] ⟨rfl, rfl⟩ halloc hptr
    (by simpa using hfit)
  simp only [List.nil_append] at hd hl
  refine ⟨r, hs, ?_, ?_, ?_⟩
  · rw [hd, hl]; simp
  · rw [hl]
    have hsum : ∀ l : List delivery, (∀ d ∈ l, d.ptr.length = d.size * d.nmemb) →
        (l.map (fun d => d.ptr)).flatten.length = (l.map (fun d => d.size * d.nmemb)).sum := by
      intro l
      induction l with
      | nil => intro _; rfl
      | cons a t ih =>
        intro h
        simp only [List.map_cons, List.flatten_cons, List.length_append, List.sum_cons]
        rw [h a (List.mem_cons_self _ _), ih (fun e he => h e (List.mem_cons_of_mem _ he))]
    exact hsum ds hptr
  · rw [hd, hl]; simp

/-- Witness of `write_cb_accumulates`: the chunks "hi" (1 x 2) and "!" (1 x 1). -/
theorem write_cb_accumulates_witness :
    ∃ r, write_cb_seq [⟨[104, 105], 1, 2, some (fun _ => 170)⟩, ⟨[33], 1, 1, some (fun _ => 85)⟩]
        response_init = .ok ([2, 1], r) ∧
      r.data.take r.len = [104, 105, 33] ∧ r.len = 3 ∧ r.data[r.len]? = some 0 :=
  write_cb_accumulates
    [⟨[104, 105], 1, 2, some (fun _ => 170)⟩, ⟨[33], 1, 1, some (fun _ => 85)⟩]
    (by decide) (by decide) (by decide)

/-! ### Credentials and the Authorization header -/

/-- C4: `neocities_upload` called with a null `api_key` or with the empty string returns 3,
makes no call on the transport (no handle, no transfer) and leaves `*response` as it was,
whatever the file arrays and `count` are. -/
theorem upload_without_credentials (w : curl_world) (local_files remote_names : List (List Nat))
    (count : Nat) (response : Option (List Nat)) :
    neocities_upload w none local_files remote_names count response = .ok (3, response, []) ∧
      neocities_upload w (some []) local_files remote_names count response
        = .ok (3, response, []) :=
  ⟨rfl, rfl⟩

theorem auth_header_eq (k : List Nat) :
    auth_header k = (ascii "Authorization: Bearer " ++ k).take 511 := rfl

theorem auth_header_length (k : List Nat) : (auth_header k).length + 1 ≤ 512 := by
  rw [auth_header_eq, List.length_take]; omega

/-- C9: the header list `perform_request` sets is empty for a null or empty `api_key`; for a
non-empty one it holds exactly one header, `"Authorization: Bearer " ++ api_key` when that text
has at most 511 bytes and its first 511 bytes otherwise; with its NUL every header fits the
512-byte buffer. The header list `neocities_upload` sets (lines 293-299, reached only with a
non-empty key) holds exactly one header of the same form for every key `k`, within the same
bound. -/
theorem authorization_header (url : List Nat) (api_key post_fields : Option (List Nat))
    (mime : Option (List curl_mimepart)) (k : List Nat) (form : List curl_mimepart) :
    (perform_setup url api_key post_fields mime).httpheader =
      (match api_key with
       | none => []
       | some k =>
         if k = [] then []
         else if (ascii "Authorization: Bearer " ++ k).length ≤ 511 then
           [ascii "Authorization: Bearer " ++ k]
         else [(ascii "Authorization: Bearer " ++ k).take 511]) ∧
      (perform_setup url api_key post_fields mime).httpheader.all
        (fun h => decide (h.length + 1 ≤ 512)) = true ∧
      (upload_setup k form).httpheader =
        (if (ascii "Authorization: Bearer " ++ k).length ≤ 511 then
           [ascii "Authorization: Bearer " ++ k]
         else [(ascii "Authorization: Bearer " ++ k).take 511]) ∧
      (upload_setup k form).httpheader.all (fun h => decide (h.length + 1 ≤ 512)) = true := by
  have hup : (upload_setup k form).httpheader = [auth_header k] := rfl
  rw [← and_assoc]
  refine ⟨?_, ?_, ?_⟩
  rotate_left
  · rw [hup, auth_header_eq]
    split
    · next h => rw [List.take_of_length_le h]
    · rfl
  · rw [hup]
    simpa using auth_header_length k
  cases api_key with
  | none => exact ⟨rfl, rfl⟩
  | some k1 =>
    cases k1 with
    | nil => exact ⟨rfl, rfl⟩
    | cons a t =>
      have hpos : strlen (a :: t) > 0 := by simp [strlen]
      have hh : (perform_setup url (some (a :: t)) post_fields mime).httpheader
          = [auth_header (a :: t)] := by
        simp only [perform_setup, if_pos hpos, List.nil_append]
      rw [hh]
      refine ⟨?_, ?_⟩
      · simp only [reduceCtorEq, if_false, auth_header_eq]
        split
        · next h => rw [List.take_of_length_le h]
        · rfl
      · simpa using auth_header_length (a :: t)

/-! ### HTTP status of a completed transfer -/

theorem perform_request_http_error (w : curl_world) (url : List Nat)
    (api_key post_fields : Option (List Nat)) (resp : response)
    (mime : Option (List curl_mimepart)) (res : Nat) (r1 : response) (code : Int)
    (hinit : w.init_ok = true) (ht : curl_easy_perform w response_init = .ok (res, r1))
    (hc : w.response_code = some code) (h400 : code ≥ 400) :
    perform_request w url api_key post_fields resp mime = .error .double_free := by
  simp [perform_request, hinit, ht, hc, h400]

/-- Info, List and Delete go through `perform_request`: a completed transfer with status `>= 400`
takes its failure branch, where the handle is released a second time, so none of them gets to
return 2. -/
theorem http_error_info_list_delete (w : curl_world) (json_loads : List Nat → Option json_t)
    (api_key sitename path : Option (List Nat)) (info : neocities_info_t)
    (files : neocities_filelist_t) (filenames : List (List Nat)) (count : Nat)
    (body : List Nat) (res : Nat) (r1 : response) (code : Int) (old : Option (List Nat))
    (hinit : w.init_ok = true) (ht : curl_easy_perform w response_init = .ok (res, r1))
    (hc : w.response_code = some code) (h400 : code ≥ 400)
    (hbody : delete_body filenames count = .ok body) :
    neocities_info w json_loads sitename info = .error .double_free ∧
      neocities_list w json_loads api_key path files = .error .double_free ∧
      neocities_delete w api_key filenames count old = .error .double_free := by
  refine ⟨?_, ?_, ?_⟩
  · simp only [neocities_info,
      perform_request_http_error w _ none none response_local none res r1 code hinit ht hc h400]
  · simp only [neocities_list,
      perform_request_http_error w _ api_key none response_local none res r1 code hinit ht hc h400]
  · simp only [neocities_delete, hbody,
      perform_request_http_error w _ api_key (some body) response_local none res r1 code hinit ht
        hc h400]

/-- C2, the Upload case: `neocities_upload` tests only the transfer code, not the HTTP status.
With a non-empty key, one file, a transfer that completes with `CURLE_OK`, delivers the two
bytes "no" and carries status 404, the call returns 0 and stores the accumulated buffer in
`*response`, where the claim has it return 2 and leave `*response` unwritten. -/
theorem upload_ignores_http_status :
    neocities_upload ⟨true, [⟨[110, 111], 1, 2, some (fun _ => 0)⟩], CURLE_OK, some 404⟩
        (some [107]) [[102]] [[103]] 1 none
      = .ok (0, some [110, 111, 0],
          [.easy_init, .easy_perform (upload_setup [107] [⟨[103], [102]⟩])]) := by
  rfl

/-! ### list: elements without a string `path` -/

theorem for_collect_error {α : Type} (body : Nat → Except fault α) (e : fault)
    (honly : ∀ k e1, body k = .error e1 → e1 = e) :
    ∀ n i j, j < n → body (i + j) = .error e → for_collect body i n = .error e := by
  intro n
  induction n with
  | zero => intro i j hj; omega
  | succ n ih =>
    intro i j hj hb
    cases hbi : body i with
    | error e1 =>
      have he1 := honly i e1 hbi
      subst he1
      simp only [for_collect, hbi]
    | ok v =>
      cases j with
      | zero => rw [Nat.add_zero, hbi] at hb; cases hb
      | succ j =>
        have hb1 : body (i + 1 + j) = .error e := by
          rw [Nat.add_assoc, Nat.add_comm 1 j]; exact hb
        simp only [for_collect, hbi, ih (i + 1) j (by omega) hb1]

theorem list_path_fault (arr : Option json_t) (k : Nat) (e1 : fault)
    (h : list_path arr k = .error e1) : e1 = .null_deref := by
  simp only [list_path] at h
  cases hv : json_string_value (json_object_get (json_array_get arr k) (ascii "path")) with
  | none =>
    simp only [hv, strdup] at h
    cases h
    rfl
  | some v =>
    simp only [hv, strdup] at h
    cases h

theorem list_path_of_not_string (elems : List json_t) (j : Nat) (e : json_t)
    (he : elems[j]? = some e)
    (hpath : json_is_string (json_object_get (some e) (ascii "path")) = false) :
    list_path (some (.array elems)) j = .error .null_deref := by
  have hv : json_string_value (json_object_get (some e) (ascii "path")) = none := by
    cases hj : json_object_get (some e) (ascii "path") with
    | none => rfl
    | some x =>
      rw [hj] at hpath
      cases x <;> first | rfl | cases hpath
  simp only [list_path, json_array_get, he, hv, strdup]

/-- C8: when the fetched and parsed root has a "files" array with an element whose "path" is
absent or not a string, `neocities_list` does not return the protocol failure code: line 222
passes the null result of `json_string_value` to `strdup`, the fault `null_deref`. -/
theorem list_missing_path_faults (w : curl_world) (json_loads : List Nat → Option json_t)
    (api_key path : Option (List Nat)) (out : neocities_filelist_t) (resp : response)
    (calls : List curl_call) (root : json_t) (elems : List json_t) (j : Nat) (e : json_t)
    (hreq : perform_request w (list_url path) api_key none response_local none
      = .ok (0, resp, calls))
    (hroot : json_loads (c_str resp.data) = some root)
    (hfiles : json_object_get (some root) (ascii "files") = some (.array elems))
    (he : elems[j]? = some e)
    (hpath : json_is_string (json_object_get (some e) (ascii "path")) = false) :
    neocities_list w json_loads api_key path out = .error .null_deref := by
  have hj : j < elems.length := by
    by_contra hn
    rw [List.getElem?_eq_none (by omega)] at he
    cases he
  have hfc := for_collect_error (list_path (some (.array elems))) .null_deref
    (list_path_fault _) elems.length 0 j hj
    (by rw [Nat.zero_add]; exact list_path_of_not_string elems j e he hpath)
  simp [neocities_list, hreq, hroot, list_from_root, hfiles, json_array_size, hfc]

/-- Witness of `list_missing_path_faults`: status 200, the root `{"files": [{}]}`. -/
theorem list_missing_path_faults_witness :
    neocities_list ⟨true, [], CURLE_OK, some 200⟩
        (fun _ => some (.object [(ascii "files", .array [.object []])])) none none ⟨none, 0⟩
      = .error .null_deref :=
  list_missing_path_faults ⟨true, [], CURLE_OK, some 200⟩
    (fun _ => some (.object [(ascii "files", .array [.object []])])) none none ⟨none, 0⟩
    response_init [.easy_init, .easy_perform (perform_setup (list_url none) none none none)]
    (.object [(ascii "files", .array [.object []])]) [.object []] 0 (.object [])
    rfl rfl rfl rfl rfl

/-- C7: when the fetched and parsed root has no "files" member, `neocities_list` returns 4 with
`*out` as it was (neither `paths` nor `count` written); the decoding stops before the loop of
line 220, so no `path` is extracted and no fault can arise there. -/
theorem list_without_files (w : curl_world) (json_loads : List Nat → Option json_t)
    (api_key path : Option (List Nat)) (out : neocities_filelist_t) (resp : response)
    (calls : List curl_call) (root : json_t)
    (hreq : perform_request w (list_url path) api_key none response_local none
      = .ok (0, resp, calls))
    (hroot : json_loads (c_str resp.data) = some root)
    (hfiles : json_object_get (some root) (ascii "files") = none) :
    neocities_list w json_loads api_key path out = .ok (4, out, calls) ∧
      list_from_root root out = .ok (4, out) := by
  simp [neocities_list, hreq, hroot, list_from_root, hfiles]

/-- Witness of `list_without_files`: status 200, the root `{"result": "success"}`, and an output
record that already holds one path. -/
theorem list_without_files_witness :
    neocities_list ⟨true, [], CURLE_OK, some 200⟩
        (fun _ => some (.object [(ascii "result", .string (ascii "success"))]))
        (some [107]) none ⟨some [some [120]], 1⟩
      = .ok (4, ⟨some [some [120]], 1⟩,
          [.easy_init, .easy_perform (perform_setup (list_url none) (some [107]) none none)]) ∧
      list_from_root (.object [(ascii "result", .string (ascii "success"))])
          ⟨some [some [120]], 1⟩
        = .ok (4, ⟨some [some [120]], 1⟩) :=
  list_without_files ⟨true, [], CURLE_OK, some 200⟩
    (fun _ => some (.object [(ascii "result", .string (ascii "success"))]))
    (some [107]) none ⟨some [some [120]], 1⟩ response_init
    [.easy_init, .easy_perform (perform_setup (list_url none) (some [107]) none none)]
    (.object [(ascii "result", .string (ascii "success"))]) rfl rfl rfl

/-! ### info: decoding of the root -/

theorem string_field_eq (j : Option json_t) : string_field j = .ok (json_string_value j) := by
  cases j with
  | none => rfl
  | some x => cases x <;> rfl

theorem for_collect_ok {α : Type} (f : Nat → α) :
    ∀ n i, for_collect (fun k => .ok (f k)) i n = .ok ((List.range' i n).map f) := by
  intro n
  induction n with
  | zero => intro i; rfl
  | succ n ih => intro i; simp only [for_collect, ih, List.range', List.map_cons]

theorem array_values (elems : List json_t) :
    (List.range' 0 elems.length).map
        (fun i => json_string_value (json_array_get (some (.array elems)) i))
      = elems.map (fun e => json_string_value (some e)) := by
  apply List.ext_getElem
  · simp
  · intro i h1 h2
    simp only [List.length_map, List.length_range'] at h1
    simp [json_array_get, List.getElem?_eq_getElem h1]

theorem info_from_root_rejects (root : json_t) (out : neocities_info_t)
    (hbad : json_string_value (json_object_get (some root) (ascii "result"))
        ≠ some (ascii "success") ∨
      json_is_object (json_object_get (some root) (ascii "info")) = false) :
    info_from_root root out = .ok (4, out) := by
  unfold info_from_root
  cases hr : json_string_value (json_object_get (some root) (ascii "result")) with
  | none => rfl
  | some r =>
    by_cases hs : r = ascii "success"
    · rcases hbad with h | h
      · rw [hr, hs] at h
        exact absurd rfl h
      · simp [hs, h]
    · simp [hs]

theorem info_from_root_accepts (root : json_t) (out : neocities_info_t)
    (members : List (List Nat × json_t))
    (hres : json_string_value (json_object_get (some root) (ascii "result"))
      = some (ascii "success"))
    (hinfo : json_object_get (some root) (ascii "info") = some (.object members)) :
    ∃ o, info_from_root root out = .ok (0, o) ∧
      (match members.lookup (ascii "tags") with
       | some (.array elems) =>
         o.tag_count = elems.length ∧
           o.tags = some (elems.map (fun e => json_string_value (some e)))
       | _ => o.tag_count = 0 ∧ o.tags = none) := by
  have hget : ∀ key, json_object_get (some (.object members)) key = members.lookup key :=
    fun _ => rfl
  simp only [info_from_root, hres, hinfo, json_is_object, string_field_eq, hget, ne_eq,
    not_true_eq_false, if_false, Bool.true_eq_false]
  cases ht : members.lookup (ascii "tags") with
  | none => exact ⟨_, rfl, rfl, rfl⟩
  | some t =>
    cases t with
    | array elems =>
      simp only [json_is_array, Bool.true_eq_false, if_false, json_array_size, for_collect_ok,
        array_values]
      exact ⟨_, rfl, rfl, rfl⟩
    | _ => exact ⟨_, rfl, rfl, rfl⟩

/-- C5: for a fetched and parsed root, `neocities_info` returns 4 with `*out` as it was when the
"result" member is not the string "success" or the "info" member is not an object, and returns 0
in every other case, whatever the members of "info" are. -/
theorem info_protocol_error_iff (w : curl_world) (json_loads : List Nat → Option json_t)
    (sitename : Option (List Nat)) (out : neocities_info_t) (resp : response)
    (calls : List curl_call) (root : json_t)
    (hreq : perform_request w (info_url sitename) none none response_local none
      = .ok (0, resp, calls))
    (hroot : json_loads (c_str resp.data) = some root) :
    ((json_string_value (json_object_get (some root) (ascii "result")) ≠ some (ascii "success") ∨
        json_is_object (json_object_get (some root) (ascii "info")) = false) →
      neocities_info w json_loads sitename out = .ok (4, out, calls)) ∧
    (¬ (json_string_value (json_object_get (some root) (ascii "result")) ≠ some (ascii "success") ∨
        json_is_object (json_object_get (some root) (ascii "info")) = false) →
      ∃ o, neocities_info w json_loads sitename out = .ok (0, o, calls)) := by
  refine ⟨fun hbad => ?_, fun hgood => ?_⟩
  · simp [neocities_info, hreq, hroot, info_from_root_rejects root out hbad]
  · rw [not_or, not_not, Bool.not_eq_false] at hgood
    obtain ⟨hres, hobj⟩ := hgood
    cases hi : json_object_get (some root) (ascii "info") with
    | none => rw [hi] at hobj; cases hobj
    | some x =>
      cases x with
      | object members =>
        obtain ⟨o, ho, _⟩ := info_from_root_accepts root out members hres hi
        exact ⟨o, by simp [neocities_info, hreq, hroot, ho]⟩
      | _ => rw [hi] at hobj; cases hobj

/-- Witness of `info_protocol_error_iff`: with status 200, the root `{"result": "error"}` gives 4
and leaves the record, the root `{"result": "success", "info": {"hits": "x"}}` gives 0. -/
theorem info_protocol_error_iff_witness :
    neocities_info ⟨true, [], CURLE_OK, some 200⟩
        (fun _ => some (.object [(ascii "result", .string (ascii "error"))])) none
        ⟨some [115], none, none, none, 7, none, 0⟩
      = .ok (4, ⟨some [115], none, none, none, 7, none, 0⟩,
          [.easy_init, .easy_perform (perform_setup (info_url none) none none none)]) ∧
    ∃ o, neocities_info ⟨true, [], CURLE_OK, some 200⟩
        (fun _ => some (.object [(ascii "result", .string (ascii "success")),
          (ascii "info", .object [(ascii "hits", .string [120])])])) none
        ⟨some [115], none, none, none, 7, none, 0⟩
      = .ok (0, o, [.easy_init, .easy_perform (perform_setup (info_url none) none none none)]) :=
  ⟨(info_protocol_error_iff ⟨true, [], CURLE_OK, some 200⟩
      (fun _ => some (.object [(ascii "result", .string (ascii "error"))])) none
      ⟨some [115], none, none, none, 7, none, 0⟩ response_init
      [.easy_init, .easy_perform (perform_setup (info_url none) none none none)]
      (.object [(ascii "result", .string (ascii "error"))]) rfl rfl).1 (Or.inl (by decide)),
   (info_protocol_error_iff ⟨true, [], CURLE_OK, some 200⟩
      (fun _ => some (.object [(ascii "result", .string (ascii "success")),
        (ascii "info", .object [(ascii "hits", .string [120])])])) none
      ⟨some [115], none, none, none, 7, none, 0⟩ response_init
      [.easy_init, .easy_perform (perform_setup (info_url none) none none none)]
      (.object [(ascii "result", .string (ascii "success")),
        (ascii "info", .object [(ascii "hits", .string [120])])]) rfl rfl).2 (by decide)⟩

/-- C6: for a fetched and parsed root that `neocities_info` accepts ("result" is "success",
"info" is an object), the call returns 0; when the "tags" member of "info" is absent or not an
array, `tag_count` is 0 and `tags` is null; when it is an array, `tag_count` is its size and
`tags[i]` is the string value of element `i` if that is a string and null otherwise, in order. -/
theorem info_tags (w : curl_world) (json_loads : List Nat → Option json_t)
    (sitename : Option (List Nat)) (out : neocities_info_t) (resp : response)
    (calls : List curl_call) (root : json_t) (members : List (List Nat × json_t))
    (hreq : perform_request w (info_url sitename) none none response_local none
      = .ok (0, resp, calls))
    (hroot : json_loads (c_str resp.data) = some root)
    (hres : json_string_value (json_object_get (some root) (ascii "result"))
      = some (ascii "success"))
    (hinfo : json_object_get (some root) (ascii "info") = some (.object members)) :
    ∃ o, neocities_info w json_loads sitename out = .ok (0, o, calls) ∧
      (match json_object_get (some (.object members)) (ascii "tags") with
       | some (.array elems) =>
         o.tag_count = elems.length ∧
           o.tags = some (elems.map (fun e => json_string_value (some e)))
       | _ => o.tag_count = 0 ∧ o.tags = none) := by
  obtain ⟨o, ho, htags⟩ := info_from_root_accepts root out members hres hinfo
  exact ⟨o, by simp [neocities_info, hreq, hroot, ho], htags⟩

/-- Witness of `info_tags`: status 200 and the root
`{"result": "success", "info": {"tags": ["a", 5, "b"]}}`. -/
theorem info_tags_witness :
    ∃ o, neocities_info ⟨true, [], CURLE_OK, some 200⟩
        (fun _ => some (.object [(ascii "result", .string (ascii "success")),
          (ascii "info", .object [(ascii "tags",
            .array [.string [97], .integer 5, .string [98]])])])) none
        ⟨none, none, none, none, 0, none, 0⟩
      = .ok (0, o, [.easy_init, .easy_perform (perform_setup (info_url none) none none none)]) ∧
      (o.tag_count = 3 ∧ o.tags = some [some [97], none, some [98]]) :=
  info_tags ⟨true, [], CURLE_OK, some 200⟩
    (fun _ => some (.object [(ascii "result", .string (ascii "success")),
      (ascii "info", .object [(ascii "tags",
        .array [.string [97], .integer 5, .string [98]])])])) none
    ⟨none, none, none, none, 0, none, 0⟩ response_init
    [.easy_init, .easy_perform (perform_setup (info_url none) none none none)]
    (.object [(ascii "result", .string (ascii "success")),
      (ascii "info", .object [(ascii "tags",
        .array [.string [97], .integer 5, .string [98]])])])
    [(ascii "tags", .array [.string [97], .integer 5, .string [98]])] rfl rfl rfl rfl

/-! ### delete: the request body -/

theorem size_sub_eq (a b : Nat) (hb : b ≤ a) (ha : a < SIZE_MOD) : size_sub a b = a - b := by
  unfold size_sub
  have h : a + SIZE_MOD - b = (a - b) + SIZE_MOD := by omega
  rw [h, Nat.add_mod_right]
  exact Nat.mod_eq_of_lt (by omega)

theorem take_take_append (n : Nat) (a b : List Nat) :
    ((a.take n) ++ b).take n = (a ++ b).take n := by
  rw [List.take_append_eq_append_take, List.take_append_eq_append_take, List.take_take,
    Nat.min_self, List.length_take]
  by_cases h : a.length ≤ n
  · rw [Nat.min_eq_right h]
  · have h1 : n - min n a.length = 0 := by omega
    have h2 : n - a.length = 0 := by omega
    rw [h1, h2]

theorem strncat_body (body tmp : List Nat) (h : body.length ≤ 1023) :
    strncat 1024 body tmp (size_sub (size_sub 1024 (strlen body)) 1)
      = .ok ((body ++ tmp).take 1023) := by
  have hM : (1024 : Nat) < SIZE_MOD := by decide
  have h1 : size_sub 1024 (strlen body) = 1024 - body.length :=
    size_sub_eq 1024 body.length (by omega) hM
  have h2 : size_sub (1024 - body.length) 1 = 1023 - body.length := by
    rw [size_sub_eq (1024 - body.length) 1 (by omega) (by omega)]
    omega
  rw [h1, h2]
  have h3 : (body ++ tmp).take 1023 = body ++ tmp.take (1023 - body.length) := by
    rw [List.take_append_eq_append_take, List.take_of_length_le h]
  unfold strncat
  rw [if_pos (by simp only [List.length_append, List.length_take]; omega), h3]

theorem delete_body_loop_eq (rest : List (List Nat)) :
    ∀ (pre : List (List Nat)) (body : List Nat), body.length ≤ 1023 →
      delete_body_loop (pre ++ rest) pre.length rest.length body
        = .ok ((body ++ (rest.map delete_piece).flatten).take 1023) := by
  induction rest with
  | nil =>
    intro pre body h
    simp [delete_body_loop, List.take_of_length_le h]
  | cons f rest ih =>
    intro pre body h
    have hget : (pre ++ f :: rest)[pre.length]? = some f := by
      rw [List.getElem?_append_right (Nat.le_refl _), Nat.sub_self, List.getElem?_cons_zero]
    have hstep := ih (pre ++ [f]) ((body ++ delete_piece f).take 1023)
      (by rw [List.length_take]; omega)
    simp only [List.append_assoc, List.singleton_append, List.length_append,
      List.length_singleton] at hstep
    simp only [List.length_cons, delete_body_loop, hget, strncat_body body _ h, hstep,
      take_take_append, List.map_cons, List.flatten_cons, List.append_assoc]

theorem delete_body_eq (fs : List (List Nat)) :
    delete_body fs fs.length = .ok (((fs.map delete_piece).flatten).take 1023) := by
  have h := delete_body_loop_eq fs [] [] (by simp)
  simpa [delete_body] using h

theorem delete_piece_full (f : List Nat) (h : f.length ≤ 242) :
    delete_piece f = ascii "filenames[]=" ++ f ++ ascii "&" := by
  unfold delete_piece snprintf
  apply List.take_of_length_le
  have h1 : (ascii "filenames[]=").length = 12 := by decide
  have h2 : (ascii "&").length = 1 := by decide
  simp only [List.length_append, h1, h2]
  omega

theorem delete_piece_cut (f : List Nat) (h : f.length = 243) :
    delete_piece f = ascii "filenames[]=" ++ f := by
  have h1 : (ascii "filenames[]=").length = 12 := by decide
  have h2 : (ascii "filenames[]=" ++ f).length = 255 := by
    rw [List.length_append, h1, h]
  unfold delete_piece snprintf
  rw [List.take_append_eq_append_take, h2, List.take_of_length_le (Nat.le_of_eq h2)]
  simp

theorem delete_pieces_full (fs : List (List Nat)) (h : ∀ f ∈ fs, f.length ≤ 242) :
    fs.map delete_piece = fs.map (fun f => ascii "filenames[]=" ++ f ++ ascii "&") :=
  List.map_congr_left (fun f hf => delete_piece_full f (h f hf))

/-- C10: the body `neocities_delete` builds for the names `fs` is the first 1023 bytes of the
concatenation, in order, of the pieces, a piece being `"filenames[]=" ++ name ++ "&"` cut to its
first 255 bytes; it has at most 1023 bytes; and it is the whole concatenation of the uncut
pieces when every name has at most 242 bytes and these total at most 1023 bytes. -/
theorem delete_body_truncation (fs : List (List Nat)) :
    ∃ b, delete_body fs fs.length = .ok b ∧
      b = ((fs.map (fun f => (ascii "filenames[]=" ++ f ++ ascii "&").take 255)).flatten).take
        1023 ∧
      b.length ≤ 1023 ∧
      ((∀ f ∈ fs, f.length ≤ 242) →
        ((fs.map (fun f => ascii "filenames[]=" ++ f ++ ascii "&")).flatten).length ≤ 1023 →
        b = (fs.map (fun f => ascii "filenames[]=" ++ f ++ ascii "&")).flatten) := by
  refine ⟨_, delete_body_eq fs, rfl, ?_, ?_⟩
  · rw [List.length_take]
    omega
  · intro hname htotal
    rw [delete_pieces_full fs hname, List.take_of_length_le htotal]

/-- Witness of `delete_body_truncation`: the names "x" and "yz". -/
theorem delete_body_truncation_witness :
    ∃ b, delete_body [[120], [121, 122]] 2 = .ok b ∧
      b = (([[120], [121, 122]].map
        (fun f => (ascii "filenames[]=" ++ f ++ ascii "&").take 255)).flatten).take 1023 ∧
      b.length ≤ 1023 ∧
      b = ascii "filenames[]=x&filenames[]=yz&" :=
  match delete_body_truncation [[120], [121, 122]] with
  | ⟨b, h1, h2, h3, h4⟩ => ⟨b, h1, h2, h3, h4 (by decide) (by decide)⟩

/-- C3, amended: for names of at most 242 bytes each whose pieces
`"filenames[]=" ++ name ++ "&"` total at most 1023 bytes, the body `neocities_delete` builds is
the concatenation of these pieces in order, the names copied byte for byte. -/
theorem delete_body_verbatim (fs : List (List Nat)) (hname : ∀ f ∈ fs, f.length ≤ 242)
    (htotal : ((fs.map (fun f => ascii "filenames[]=" ++ f ++ ascii "&")).flatten).length
      ≤ 1023) :
    delete_body fs fs.length
      = .ok ((fs.map (fun f => ascii "filenames[]=" ++ f ++ ascii "&")).flatten) := by
  rw [delete_body_eq, delete_pieces_full fs hname, List.take_of_length_le htotal]

/-- Witness of `delete_body_verbatim`: the names "a.txt" and "b b.txt", the blank copied as
it is. -/
theorem delete_body_verbatim_witness :
    delete_body [ascii "a.txt", ascii "b b.txt"] 2
      = .ok (ascii "filenames[]=a.txt&filenames[]=b b.txt&") :=
  delete_body_verbatim [ascii "a.txt", ascii "b b.txt"] (by decide) (by decide)

/-- C3 as stated fails for a long name: for one name of 243 bytes `a`, the piece
`"filenames[]=" ++ name ++ "&"` has 256 bytes, `tmp` keeps 255 of them, and the body ends
without the `&`. -/
theorem delete_body_long_name :
    delete_body [List.replicate 243 97] 1
        = .ok (ascii "filenames[]=" ++ List.replicate 243 97) ∧
      ascii "filenames[]=" ++ List.replicate 243 97
        ≠ ([List.replicate 243 97].map
            (fun f => ascii "filenames[]=" ++ f ++ ascii "&")).flatten := by
  refine ⟨?_, ?_⟩
  · have hp := delete_piece_cut (List.replicate 243 97) (List.length_replicate _ _)
    have hb := delete_body_eq [List.replicate 243 97]
    simp only [List.map_cons, List.map_nil, List.flatten_cons, List.flatten_nil,
      List.append_nil, hp, List.length_singleton] at hb
    rw [hb, List.take_of_length_le]
    have h1 : (ascii "filenames[]=").length = 12 := by decide
    rw [List.length_append, h1, List.length_replicate]
    omega
  · intro h
    have hl := congrArg List.length h
    have h1 : (ascii "filenames[]=").length = 12 := by decide
    have h2 : (ascii "&").length = 1 := by decide
    simp only [List.map_cons, List.map_nil, List.flatten_cons, List.flatten_nil,
      List.append_nil, List.length_append, h1, h2, List.length_replicate] at hl
    omega

end Neogities
